import Mathlib

/-!
Shallow embedding of the kindergarten inventory backend
(`backend/app/crud.py`, `backend/app/tasks.py`, data model from
`backend/app/models.py`, input validation from `backend/app/schemas.py`).

Conventions of the embedding:
* SQLAlchemy `Float` columns are modelled as `ℚ` (exact arithmetic over the
  reals the spec talks about), `DateTime` columns as `Nat` timestamps.
* The database is a record of row lists in insertion order plus the
  autoincrement counters of the integer primary keys.
* Each CRUD function returns its Python return value (or the exception it
  raises) together with the *committed* database state: SQLAlchemy only makes
  session mutations durable at `commit()`, and every exception path of the
  translated functions escapes before the enclosing `commit()`, so the
  committed state on an exception is the state of the last completed commit.
* `select(T).where(T.c == k)` with `.scalars().first()` is `List.find?`,
  `.scalars().all()` is `List.filter`, in row order.
* Redis `publish` calls are immediate external side effects (they are not part
  of the database transaction); `serve_meal` therefore also returns the list
  of messages it published, even when it raises.
-/

/-- Model of `models.Product`: id, unique name, quantity on hand, last
delivery time (nullable column), reorder threshold. -/
structure Product where
  id : Nat
  name : String
  quantity : ℚ
  delivery_date : Option Nat
  threshold : ℚ

deriving Repr, DecidableEq

/-- Model of `models.Meal`: id, unique name. -/
structure Meal where
  id : Nat
  name : String

deriving Repr, DecidableEq

/-- Model of `models.MealIngredient`: (meal_id, product_id) keyed association
row with a per-serving quantity. -/
structure MealIngredient where
  meal_id : Nat
  product_id : Nat
  quantity : ℚ

deriving Repr, DecidableEq

/-- Model of `models.MealServing`: one row per served meal, with the acting
user and a timestamp. -/
structure MealServing where
  id : Nat
  meal_id : Nat
  user_id : Nat
  timestamp : Nat

deriving Repr, DecidableEq

/-- Model of `models.InventoryLog`: append-only ledger row. -/
structure InventoryLog where
  id : Nat
  product_id : Nat
  change_type : String
  quantity : ℚ
  timestamp : Nat
  user_id : Nat

deriving Repr, DecidableEq

/-- The committed database state: the five row tables in insertion order and
the autoincrement counters for the integer primary keys. -/
structure DB where
  products : List Product
  meals : List Meal
  meal_ingredients : List MealIngredient
  meal_servings : List MealServing
  inventory_logs : List InventoryLog
  next_product_id : Nat
  next_meal_id : Nat
  next_serving_id : Nat
  next_log_id : Nat

deriving Repr, DecidableEq

/-- Exceptions the translated code can raise.  `httpException` is FastAPI's
`HTTPException(status_code, detail)`; the other constructors are the Python
runtime errors the code can hit. -/
inductive PyError where
  | httpException (status : Nat) (detail : String)
  | integrityError (constraint : String)
  | attributeError (msg : String)
  | overflowError (msg : String)
  | typeError (msg : String)

deriving Repr, DecidableEq

/-- Model of `schemas.ProductCreate`: pydantic payload for product
create/update.  `quantity` and `threshold` carry `Field(ge=0)` validation
(the `valid` predicate below); `delivery_date` is optional client input. -/
structure ProductCreate where
  name : String
  quantity : ℚ
  threshold : ℚ
  delivery_date : Option Nat

deriving Repr, DecidableEq

/-- The pydantic `Field(ge=0)` constraints on `ProductCreate`. -/
def ProductCreate.valid (pc : ProductCreate) : Prop :=
  0 ≤ pc.quantity ∧ 0 ≤ pc.threshold

instance (pc : ProductCreate) : Decidable pc.valid := by
  unfold ProductCreate.valid; infer_instance

/-- Model of `schemas.MealIngredient` as used inside `MealCreate` (the
`meal_id` field of the payload is ignored by `create_meal`, which uses the
fresh meal's id). -/
structure MealIngredientIn where
  meal_id : Nat
  product_id : Nat
  quantity : ℚ

deriving Repr, DecidableEq

/-- Model of `schemas.MealCreate`. -/
structure MealCreate where
  name : String
  ingredients : List MealIngredientIn

deriving Repr, DecidableEq

/-- Model of `schemas.MealServingCreate`. -/
structure MealServingCreate where
  meal_id : Nat

deriving Repr, DecidableEq

/-- Translation of `select(Product).where(Product.id == pid)` followed by
`.scalars().first()`. -/
def findProduct (ps : List Product) (pid : Nat) : Option Product :=
  ps.find? (fun p => p.id == pid)

/-- In-place mutation of the first row matching `pid` (SQLAlchemy's identity
map: the object returned by the select is mutated in the session). -/
def updateFirst (ps : List Product) (pid : Nat) (f : Product → Product) :
    List Product :=
  match ps with
  | [] => []
  | p :: rest => if p.id = pid then f p :: rest else p :: updateFirst rest pid f

/-- Removal of the first row matching `pid` (`db.delete(db_product)`). -/
def removeFirst (ps : List Product) (pid : Nat) : List Product :=
  match ps with
  | [] => []
  | p :: rest => if p.id = pid then rest else p :: removeFirst rest pid

/-- Translation of `crud.create_product`: builds the `Product` with a
server-assigned `datetime.utcnow()` timestamp (the client's `delivery_date`
field is never read), adds a `delivery` ledger row, and commits once; a
duplicate name makes that commit raise `IntegrityError` on the
`products_name_key` unique constraint, which is caught, rolled back and
re-raised as HTTP 400. -/
def create_product (db : DB) (product : ProductCreate) (now : Nat) :
    Except PyError Product × DB :=
  let db_product : Product :=
    { id := db.next_product_id
      name := product.name
      quantity := product.quantity
      delivery_date := some now
      threshold := product.threshold }
  if db.products.any (fun p => p.name == product.name) then
    (.error (.httpException 400 "A product with that name already exists"), db)
  else
    (.ok db_product,
      { db with
          products := db.products ++ [db_product]
          inventory_logs := db.inventory_logs ++
            [{ id := db.next_log_id
               product_id := db_product.id
               change_type := "delivery"
               quantity := product.quantity
               timestamp := now
               user_id := 1 }]
          next_product_id := db.next_product_id + 1
          next_log_id := db.next_log_id + 1 })

/-- Translation of `crud.get_product`. -/
def get_product (db : DB) (product_id : Nat) : Option Product :=
  findProduct db.products product_id

/-- Translation of `crud.update_product`: `None` when absent; otherwise every
field of the payload (`product.dict().items()`, including `delivery_date`)
is written onto the row, a ledger row is added when the quantity changed
(`delivery` on increase, `adjustment` on decrease, magnitude
`abs(new - old)`), and the transaction commits. -/
def update_product (db : DB) (product_id : Nat) (product : ProductCreate)
    (now : Nat) : Except PyError (Option Product) × DB :=
  match findProduct db.products product_id with
  | none => (.ok none, db)
  | some db_product =>
    let updated : Product :=
      { db_product with
          name := product.name
          quantity := product.quantity
          threshold := product.threshold
          delivery_date := product.delivery_date }
    let logs :=
      if db_product.quantity ≠ product.quantity then
        [{ id := db.next_log_id
           product_id := product_id
           change_type :=
             if db_product.quantity < product.quantity then "delivery"
             else "adjustment"
           quantity := |product.quantity - db_product.quantity|
           timestamp := now
           user_id := 1 : InventoryLog }]
      else []
    (.ok (some updated),
      { db with
          products := updateFirst db.products product_id (fun _ => updated)
          inventory_logs := db.inventory_logs ++ logs
          next_log_id := db.next_log_id + logs.length })

/-- First ingredient of the payload whose referenced product does not exist
(the order in which `crud.create_meal`'s validation loop hits it). -/
def firstMissingProduct (ps : List Product) :
    List MealIngredientIn → Option Nat
  | [] => none
  | ingredient :: rest =>
    if (findProduct ps ingredient.product_id).isNone then
      some ingredient.product_id
    else firstMissingProduct ps rest

/-- State committed by `crud.create_meal`'s *first* `commit()` (line 92): the
meal row alone, before any ingredient is validated or inserted. -/
def dbWithMealRow (db : DB) (meal : MealCreate) : DB :=
  { db with
      meals := db.meals ++ [{ id := db.next_meal_id, name := meal.name }]
      next_meal_id := db.next_meal_id + 1 }

/-- Translation of `crud.create_meal`: adds the meal row and commits it
immediately; only then does it loop over the ingredients, raising HTTP 422
naming the first ingredient whose product is missing (leaving the
already-committed meal row in place and no ingredient row committed), and
committing all ingredient rows in a second `commit()` otherwise.  A duplicate
meal name makes the first commit raise an uncaught `IntegrityError` (no row
committed). -/
def create_meal (db : DB) (meal : MealCreate) :
    Except PyError Meal × DB :=
  if db.meals.any (fun m => m.name == meal.name) then
    (.error (.integrityError "meals_name_key"), db)
  else
    let db_meal : Meal := { id := db.next_meal_id, name := meal.name }
    let db1 := dbWithMealRow db meal
    match firstMissingProduct db.products meal.ingredients with
    | some pid =>
      (.error (.httpException 422
          ("Product with id " ++ toString pid ++ " not found")), db1)
    | none =>
      (.ok db_meal,
        { db1 with
            meal_ingredients := db1.meal_ingredients ++
              meal.ingredients.map (fun ingredient =>
                { meal_id := db_meal.id
                  product_id := ingredient.product_id
                  quantity := ingredient.quantity }) })

/-- Translation of `crud.get_meal`. -/
def get_meal (db : DB) (meal_id : Nat) : Option Meal :=
  db.meals.find? (fun m => m.id == meal_id)

/-- Translation of `crud.delete_meal`: `None` when the meal is absent; HTTP
400 when a `MealServing` references it (nothing changed); otherwise the code
executes `select(MealIngredient).where(...).delete()` — but SQLAlchemy
`Select` objects have no `delete` method, so this statement raises
`AttributeError` before any ingredient row or the meal row is removed, and
nothing is committed. -/
def delete_meal (db : DB) (meal_id : Nat) :
    Except PyError (Option Meal) × DB :=
  match db.meals.find? (fun m => m.id == meal_id) with
  | none => (.ok none, db)
  | some _ =>
    if db.meal_servings.any (fun s => s.meal_id == meal_id) then
      (.error (.httpException 400 "Cannot delete meal with existing servings"),
        db)
    else
      (.error (.attributeError "'Select' object has no attribute 'delete'"),
        db)

/-- Model of the Redis message
`f"Inventory updated: ...g of ..."` published by `serve_meal` for one
ingredient, represented by the pair of values interpolated into it. -/
structure Notification where
  quantity : ℚ
  product_id : Nat

deriving Repr, DecidableEq

/-- Notification `serve_meal` publishes for one ingredient. -/
def notifOf (ingredient : MealIngredient) : Notification :=
  { quantity := ingredient.quantity, product_id := ingredient.product_id }

/-- Translation of
`select(MealIngredient).where(MealIngredient.meal_id == meal_id)` followed by
`.scalars().all()`. -/
def ingredientsOf (db : DB) (meal_id : Nat) : List MealIngredient :=
  db.meal_ingredients.filter (fun i => i.meal_id == meal_id)

/-- Per-ingredient loop of `crud.serve_meal` (lines 159-172): for each
ingredient in row order, re-select the product, raise HTTP 400 if it is
missing or its current quantity is below the per-serving quantity, otherwise
decrement the session object's quantity, add a `consumption` ledger row and
publish one notification.  Returns the session's pending product/ledger state
on success, and in both cases the notifications already published (Redis
publishes happen immediately, outside the transaction). -/
def serveLoop (user_id now : Nat) :
    List MealIngredient → List Product → List InventoryLog → Nat →
    List Notification →
    Except PyError (List Product × List InventoryLog × Nat) ×
      List Notification
  | [], ps, logs, next_log, pub => (.ok (ps, logs, next_log), pub)
  | ingredient :: rest, ps, logs, next_log, pub =>
    match findProduct ps ingredient.product_id with
    | none =>
      (.error (.httpException 400 "Insufficient quantity for product"), pub)
    | some product =>
      if product.quantity < ingredient.quantity then
        (.error (.httpException 400
            ("Insufficient quantity for " ++ product.name)), pub)
      else
        serveLoop user_id now rest
          (updateFirst ps ingredient.product_id
            (fun p => { p with quantity := p.quantity - ingredient.quantity }))
          (logs ++
            [{ id := next_log
               product_id := ingredient.product_id
               change_type := "consumption"
               quantity := ingredient.quantity
               timestamp := now
               user_id := user_id }])
          (next_log + 1)
          (pub ++ [notifOf ingredient])

/-- Translation of `crud.serve_meal`: loads the meal's ingredients (HTTP 404
when there are none), runs the check-and-decrement loop, and on full success
creates the `MealServing` row and commits everything in one `commit()`.  On
any exception nothing was committed, so the committed state is the input
state; the notifications already published by the loop are returned
alongside. -/
def serve_meal (db : DB) (meal_serving : MealServingCreate)
    (user_id now : Nat) :
    Except PyError MealServing × DB × List Notification :=
  let ingredients := ingredientsOf db meal_serving.meal_id
  if ingredients.isEmpty then
    (.error (.httpException 404 "Meal has no ingredients defined"), db, [])
  else
    match serveLoop user_id now ingredients db.products db.inventory_logs
        db.next_log_id [] with
    | (.error e, pub) => (.error e, db, pub)
    | (.ok (ps, logs, next_log), pub) =>
      let serving : MealServing :=
        { id := db.next_serving_id
          meal_id := meal_serving.meal_id
          user_id := user_id
          timestamp := now }
      (.ok serving,
        { db with
            products := ps
            inventory_logs := logs
            next_log_id := next_log
            meal_servings := db.meal_servings ++ [serving]
            next_serving_id := db.next_serving_id + 1 },
        pub)

/-- One portion-estimate record of `crud.get_portion_estimates`. -/
structure Estimate where
  meal_id : Nat
  name : String
  portions : ℤ

deriving Repr, DecidableEq

/-- Inner loop of `crud.get_portion_estimates` (lines 193-199): `portions`
starts at `float("inf")` (modelled as `none`); an ingredient whose product is
missing leaves the accumulator untouched; otherwise its availability is
`floor(product.quantity / ingredient.quantity)` (or `0` when the per-serving
quantity is not positive) and the accumulator takes the minimum. -/
def portionsGo (ps : List Product) :
    List MealIngredient → Option ℤ → Option ℤ
  | [], acc => acc
  | ingredient :: rest, acc =>
    match findProduct ps ingredient.product_id with
    | none => portionsGo ps rest acc
    | some product =>
      let avail : ℤ :=
        if 0 < ingredient.quantity then
          (product.quantity / ingredient.quantity).floor
        else 0
      match acc with
      | none => portionsGo ps rest (some avail)
      | some m => portionsGo ps rest (some (min m avail))

/-- Per-meal body of `crud.get_portion_estimates`, followed by the final
`int(portions)`: when the accumulator is still infinity (non-empty ingredient
list, every product missing) that conversion raises
`OverflowError: cannot convert float infinity to integer`. -/
def estimatesLoop (db : DB) : List Meal → Except PyError (List Estimate)
  | [] => .ok []
  | meal :: rest =>
    let ingredients := ingredientsOf db meal.id
    if ingredients.isEmpty then
      (estimatesLoop db rest).map
        (fun es => { meal_id := meal.id, name := meal.name, portions := 0 } :: es)
    else
      match portionsGo db.products ingredients none with
      | none => .error (.overflowError "cannot convert float infinity to integer")
      | some v =>
        (estimatesLoop db rest).map
          (fun es => { meal_id := meal.id, name := meal.name, portions := v } :: es)

/-- Translation of `crud.get_portion_estimates`: one record per meal in row
order; raises when any meal's accumulator is still infinity at the `int()`
conversion. -/
def get_portion_estimates (db : DB) : Except PyError (List Estimate) :=
  estimatesLoop db db.meals

/-- Translation of `tasks.calculate_discrepancy_rate`: counts the servings of
the trailing 30-day window, then evaluates
`sum(p["portions"] for p in get_portion_estimates(db))` — but
`crud.get_portion_estimates` is an `async def` and is called here without
`await`, so the call yields a coroutine object and iterating it raises
`TypeError`, which the task's `except Exception` wraps and re-raises.  The
task therefore fails on every database state before any rate is computed. -/
def calculate_discrepancy_rate (db : DB) (now : Nat) :
    Except PyError (Nat × ℤ × ℚ) :=
  let start := now - 30 * 86400
  let servings_count :=
    (db.meal_servings.filter
      (fun s => start ≤ s.timestamp && s.timestamp ≤ now)).length
  let _ := servings_count
  .error (.typeError
    "Failed to calculate discrepancy rate: 'coroutine' object is not iterable")

/-- Translation of `crud.delete_product`: `None` when absent; otherwise logs
a `removal` of the full remaining quantity and deletes the row, in one
commit. -/
def delete_product (db : DB) (product_id : Nat) (now : Nat) :
    Except PyError (Option Product) × DB :=
  match findProduct db.products product_id with
  | none => (.ok none, db)
  | some db_product =>
    (.ok (some db_product),
      { db with
          products := removeFirst db.products product_id
          inventory_logs := db.inventory_logs ++
            [{ id := db.next_log_id
               product_id := product_id
               change_type := "removal"
               quantity := db_product.quantity
               timestamp := now
               user_id := 1 }]
          next_log_id := db.next_log_id + 1 })

/-- One committed stock-affecting operation of the system (the four mutators
named by the spec's invariant). -/
inductive Op where
  | createProduct (pc : ProductCreate) (now : Nat)
  | updateProduct (pid : Nat) (pc : ProductCreate) (now : Nat)
  | deleteProduct (pid : Nat) (now : Nat)
  | serveMeal (ms : MealServingCreate) (user_id now : Nat)

deriving Repr

/-- Validity of an operation's payload: the request layer runs every
`ProductCreate` payload through pydantic validation (`Field(ge=0)`) before it
reaches the CRUD layer. -/
def Op.valid : Op → Prop
  | .createProduct pc _ => pc.valid
  | .updateProduct _ pc _ => pc.valid
  | .deleteProduct _ _ => True
  | .serveMeal _ _ _ => True

/-- Committed state after one operation (on an exception the transaction was
not committed, and each translated function already returns the prior state
in that case). -/
def applyOp (db : DB) : Op → DB
  | .createProduct pc now => (create_product db pc now).2
  | .updateProduct pid pc now => (update_product db pid pc now).2
  | .deleteProduct pid now => (delete_product db pid now).2
  | .serveMeal ms user_id now => (serve_meal db ms user_id now).2.1

/-- All product quantities on hand are non-negative. -/
def nonNegStock (db : DB) : Prop :=
  ∀ p ∈ db.products, 0 ≤ p.quantity

deriving instance DecidableEq for Except

/-- Quantity decrement `product.quantity -= ingredient.quantity` applied by
the serving loop. -/
def decBy (q : ℚ) (p : Product) : Product :=
  { p with quantity := p.quantity - q }

/-- Every product of `ps` exists in `ps₀` as well, with at least the quantity
it has in `ps` (the serving loop only decrements stock, so its intermediate
session states relate to the call's initial state this way). -/
def QuantLe (ps ps₀ : List Product) : Prop :=
  ∀ pid p, findProduct ps pid = some p →
    ∃ p₀, findProduct ps₀ pid = some p₀ ∧ p.quantity ≤ p₀.quantity

/-- Failure condition of the serving loop's per-ingredient check, stated
against a product table: the referenced product is missing, or its quantity
is strictly below the ingredient's per-serving quantity. -/
def insufficientFor (ps : List Product) (ing : MealIngredient) : Prop :=
  (findProduct ps ing.product_id).elim True
    (fun p => p.quantity < ing.quantity)

instance (ps : List Product) (ing : MealIngredient) :
    Decidable (insufficientFor ps ing) := by
  unfold insufficientFor
  cases findProduct ps ing.product_id <;> simp [Option.elim] <;> infer_instance

/-- Concrete state for the C1 witness: 40g of Milk on hand, meal 1 needs 50g
per serving. -/
def c1DB : DB :=
  { products := [{ id := 1, name := "Milk", quantity := 40,
                   delivery_date := some 0, threshold := 10 }]
    meals := [{ id := 1, name := "Breakfast" }]
    meal_ingredients := [{ meal_id := 1, product_id := 1, quantity := 50 }]
    meal_servings := []
    inventory_logs := []
    next_product_id := 2
    next_meal_id := 2
    next_serving_id := 1
    next_log_id := 1 }

/-- Cumulative stock decrement of a successful serving loop: each ingredient
decrements the first product row matching its product id by its per-serving
quantity, in ingredient order. -/
def applyDecs (ps : List Product) (ings : List MealIngredient) : List Product :=
  ings.foldl
    (fun ps ing => updateFirst ps ing.product_id (decBy ing.quantity)) ps

/-- Ledger rows a successful serving loop appends: one `consumption` row per
ingredient, in order, carrying the consumed quantity and the acting user,
with consecutive autoincrement ids starting at `next_log`. -/
def consumptionLogs (user_id now : Nat) :
    List MealIngredient → Nat → List InventoryLog
  | [], _ => []
  | ing :: rest, next_log =>
    { id := next_log
      product_id := ing.product_id
      change_type := "consumption"
      quantity := ing.quantity
      timestamp := now
      user_id := user_id } :: consumptionLogs user_id now rest (next_log + 1)

/-- Concrete state for the C6 witness: 100g of Milk, meal 1 needs 50g. -/
def c6DB : DB :=
  { products := [{ id := 1, name := "Milk", quantity := 100,
                   delivery_date := some 0, threshold := 10 }]
    meals := [{ id := 1, name := "Breakfast" }]
    meal_ingredients := [{ meal_id := 1, product_id := 1, quantity := 50 }]
    meal_servings := []
    inventory_logs := []
    next_product_id := 2
    next_meal_id := 2
    next_serving_id := 1
    next_log_id := 1 }

/-- Committed state after successfully serving meal 1 once on `c6DB` (the
Milk quantity is written as the unevaluated decrement `100 - 50`). -/
def c6DB' : DB :=
  { products := [{ id := 1, name := "Milk", quantity := 100 - 50,
                   delivery_date := some 0, threshold := 10 }]
    meals := [{ id := 1, name := "Breakfast" }]
    meal_ingredients := [{ meal_id := 1, product_id := 1, quantity := 50 }]
    meal_servings := [{ id := 1, meal_id := 1, user_id := 7, timestamp := 5 }]
    inventory_logs := [{ id := 1, product_id := 1,
                         change_type := "consumption", quantity := 50,
                         timestamp := 5, user_id := 7 }]
    next_product_id := 2
    next_meal_id := 2
    next_serving_id := 2
    next_log_id := 2 }

instance (op : Op) : Decidable op.valid := by
  cases op <;> unfold Op.valid <;> infer_instance

instance (db : DB) : Decidable (nonNegStock db) := by
  unfold nonNegStock; infer_instance

/-- Concrete state for the C5 witness. -/
def c5DB : DB :=
  { products := [{ id := 1, name := "Milk", quantity := 100,
                   delivery_date := some 0, threshold := 10 }]
    meals := [{ id := 1, name := "Breakfast" }]
    meal_ingredients := [{ meal_id := 1, product_id := 1, quantity := 50 }]
    meal_servings := []
    inventory_logs := []
    next_product_id := 2
    next_meal_id := 2
    next_serving_id := 1
    next_log_id := 1 }

/-- Concrete operation sequence for the C5 witness: a delivery, an update,
two servings (the second of which fails on insufficient stock) and a
deletion. -/
def c5Ops : List Op :=
  [ .createProduct { name := "Flour", quantity := 20, threshold := 5,
                     delivery_date := none } 1,
    .updateProduct 1 { name := "Milk", quantity := 60, threshold := 10,
                       delivery_date := none } 2,
    .serveMeal { meal_id := 1 } 7 3,
    .serveMeal { meal_id := 1 } 7 4,
    .deleteProduct 2 5 ]

/-- Concrete state for the C7 counterexample: meal 1 needs 50g of Milk
(plentiful) and then 50g of Flour (stock 0), so serving aborts on the second
ingredient after the first notification has already gone out. -/
def c7DB : DB :=
  { products := [{ id := 1, name := "Milk", quantity := 100,
                   delivery_date := some 0, threshold := 10 },
                 { id := 2, name := "Flour", quantity := 0,
                   delivery_date := some 0, threshold := 5 }]
    meals := [{ id := 1, name := "Breakfast" }]
    meal_ingredients := [{ meal_id := 1, product_id := 1, quantity := 50 },
                         { meal_id := 1, product_id := 2, quantity := 50 }]
    meal_servings := []
    inventory_logs := []
    next_product_id := 3
    next_meal_id := 2
    next_serving_id := 1
    next_log_id := 1 }

/-- Concrete state for the C7 witness (a fully successful serve). -/
def c7okDB : DB :=
  { products := [{ id := 1, name := "Milk", quantity := 100,
                   delivery_date := some 0, threshold := 10 }]
    meals := [{ id := 1, name := "Breakfast" }]
    meal_ingredients := [{ meal_id := 1, product_id := 1, quantity := 50 }]
    meal_servings := []
    inventory_logs := []
    next_product_id := 2
    next_meal_id := 2
    next_serving_id := 1
    next_log_id := 1 }

/-- Committed state after the successful serve of the C7 witness. -/
def c7okDB' : DB :=
  { products := [{ id := 1, name := "Milk", quantity := 100 - 50,
                   delivery_date := some 0, threshold := 10 }]
    meals := [{ id := 1, name := "Breakfast" }]
    meal_ingredients := [{ meal_id := 1, product_id := 1, quantity := 50 }]
    meal_servings := [{ id := 1, meal_id := 1, user_id := 7, timestamp := 5 }]
    inventory_logs := [{ id := 1, product_id := 1,
                         change_type := "consumption", quantity := 50,
                         timestamp := 5, user_id := 7 }]
    next_product_id := 2
    next_meal_id := 2
    next_serving_id := 2
    next_log_id := 2 }

/-- Claim-side formula (C2) for one ingredient's availability, following the
spec's words: `floor(product.quantity / ingredient.quantity)`, with an
ingredient of per-serving quantity 0 contributing availability 0.  (The
`none` branch never arises under the claim's premise that every ingredient
references an existing product; it defaults to 0.) -/
def spec_avail (ps : List Product) (ing : MealIngredient) : ℤ :=
  match findProduct ps ing.product_id with
  | some product =>
    if ing.quantity = 0 then 0 else ⌊product.quantity / ing.quantity⌋
  | none => 0

/-- Claim-side portion estimate (C2) for one meal: 0 when the meal has no
ingredients, otherwise the minimum availability across its ingredients. -/
def spec_portion_estimate (db : DB) (meal_id : Nat) : ℤ :=
  match ingredientsOf db meal_id with
  | [] => 0
  | ing :: rest =>
    (rest.map (spec_avail db.products)).foldl min (spec_avail db.products ing)

/-- Concrete state for the C2 witness: the spec's worked example — a meal
needing 50g Milk (stock 100g) and 20g Flour (stock 30g), and a meal with no
ingredients. -/
def c2DB : DB :=
  { products := [{ id := 1, name := "Milk", quantity := 100,
                   delivery_date := some 0, threshold := 10 },
                 { id := 2, name := "Flour", quantity := 30,
                   delivery_date := some 0, threshold := 5 }]
    meals := [{ id := 1, name := "Lunch" }, { id := 2, name := "EmptyMeal" }]
    meal_ingredients := [{ meal_id := 1, product_id := 1, quantity := 50 },
                         { meal_id := 1, product_id := 2, quantity := 20 }]
    meal_servings := []
    inventory_logs := []
    next_product_id := 3
    next_meal_id := 3
    next_serving_id := 1
    next_log_id := 1 }

/-- Concrete state for C10's skip behavior: meal 1's first ingredient
references the nonexistent product 99, its second needs 10g of Rice
(stock 30g). -/
def c10skipDB : DB :=
  { products := [{ id := 1, name := "Rice", quantity := 30,
                   delivery_date := some 0, threshold := 1 }]
    meals := [{ id := 1, name := "Stew" }]
    meal_ingredients := [{ meal_id := 1, product_id := 99, quantity := 5 },
                         { meal_id := 1, product_id := 1, quantity := 10 }]
    meal_servings := []
    inventory_logs := []
    next_product_id := 2
    next_meal_id := 2
    next_serving_id := 1
    next_log_id := 1 }

/-- Concrete state for the C10 witness: meal 1 has one ingredient, whose
product does not exist. -/
def c10errDB : DB :=
  { products := []
    meals := [{ id := 1, name := "Ghost" }]
    meal_ingredients := [{ meal_id := 1, product_id := 42, quantity := 5 }]
    meal_servings := []
    inventory_logs := []
    next_product_id := 1
    next_meal_id := 2
    next_serving_id := 1
    next_log_id := 1 }

/-- Concrete state for C3: an empty catalog. -/
def c3DB : DB :=
  { products := []
    meals := []
    meal_ingredients := []
    meal_servings := []
    inventory_logs := []
    next_product_id := 1
    next_meal_id := 1
    next_serving_id := 1
    next_log_id := 1 }

/-- Meal-creation request (C3) with a dangling product reference. -/
def c3Req : MealCreate :=
  { name := "Soup"
    ingredients := [{ meal_id := 0, product_id := 1, quantity := 5 }] }

/-- Concrete state for C4: meal 2 has a serving recorded, meal 1 has an
ingredient and no serving, meal 3 does not exist. -/
def c4DB : DB :=
  { products := [{ id := 1, name := "Milk", quantity := 100,
                   delivery_date := some 0, threshold := 10 }]
    meals := [{ id := 1, name := "Breakfast" }, { id := 2, name := "Dinner" }]
    meal_ingredients := [{ meal_id := 1, product_id := 1, quantity := 50 }]
    meal_servings := [{ id := 1, meal_id := 2, user_id := 7, timestamp := 0 }]
    inventory_logs := []
    next_product_id := 2
    next_meal_id := 3
    next_serving_id := 2
    next_log_id := 1 }

/-- Concrete state for the C9 witness. -/
def c9DB : DB :=
  { products := [{ id := 1, name := "Milk", quantity := 100,
                   delivery_date := some 0, threshold := 10 }]
    meals := []
    meal_ingredients := []
    meal_servings := []
    inventory_logs := []
    next_product_id := 2
    next_meal_id := 1
    next_serving_id := 1
    next_log_id := 1 }

/-- Product-creation payload for the C9 witness (it carries a client-supplied
`delivery_date` of 99, which the server ignores). -/
def c9Req : ProductCreate :=
  { name := "Bread", quantity := 50, threshold := 5, delivery_date := some 99 }

/-- Bridge: the executable `Rat.floor` used in the embedding is the
mathematical floor. -/
theorem ratFloor_eq_intFloor (q : ℚ) : q.floor = ⌊q⌋ :=
  (Rat.floor_def' q).trans Rat.floor_def.symm

theorem findProduct_nil (pid : Nat) : findProduct [] pid = none := rfl

theorem findProduct_cons (p : Product) (ps : List Product) (pid : Nat) :
    findProduct (p :: ps) pid =
      if p.id = pid then some p else findProduct ps pid := by
  by_cases h : p.id = pid
  · rw [findProduct, List.find?_cons_of_pos _ (by simpa using h), if_pos h]
  · rw [findProduct, List.find?_cons_of_neg _ (by simpa using h), if_neg h]; rfl

theorem findProduct_updateFirst_self (ps : List Product) (pid : Nat)
    (f : Product → Product) (hf : ∀ p, (f p).id = p.id) :
    findProduct (updateFirst ps pid f) pid = (findProduct ps pid).map f := by
  induction ps with
  | nil => rfl
  | cons p rest ih =>
    by_cases h : p.id = pid
    · rw [updateFirst, if_pos h, findProduct_cons, findProduct_cons,
        if_pos ((hf p).trans h), if_pos h]; rfl
    · rw [updateFirst, if_neg h, findProduct_cons, findProduct_cons,
        if_neg h, if_neg h, ih]

theorem findProduct_updateFirst_ne (ps : List Product) (pid pid' : Nat)
    (f : Product → Product) (hf : ∀ p, (f p).id = p.id) (h : pid' ≠ pid) :
    findProduct (updateFirst ps pid f) pid' = findProduct ps pid' := by
  induction ps with
  | nil => rfl
  | cons p rest ih =>
    by_cases hp : p.id = pid
    · have hne : (f p).id ≠ pid' := fun hc => h (((hf p).symm.trans hc).symm.trans hp)
      have hne' : p.id ≠ pid' := fun hc => h (hc.symm.trans hp)
      rw [updateFirst, if_pos hp, findProduct_cons, findProduct_cons,
        if_neg hne, if_neg hne']
    · rw [updateFirst, if_neg hp, findProduct_cons, findProduct_cons, ih]

theorem mem_updateFirst (ps : List Product) (pid : Nat) (f : Product → Product)
    (x : Product) (hx : x ∈ updateFirst ps pid f) :
    x ∈ ps ∨ ∃ p ∈ ps, x = f p := by
  induction ps with
  | nil => simp [updateFirst] at hx
  | cons p rest ih =>
    by_cases h : p.id = pid
    · rw [updateFirst, if_pos h, List.mem_cons] at hx
      rcases hx with hx | hx
      · exact .inr ⟨p, List.mem_cons_self .., hx⟩
      · exact .inl (List.mem_cons_of_mem _ hx)
    · rw [updateFirst, if_neg h, List.mem_cons] at hx
      rcases hx with hx | hx
      · exact .inl (hx ▸ List.mem_cons_self ..)
      · rcases ih hx with hx | ⟨q, hq, hxq⟩
        · exact .inl (List.mem_cons_of_mem _ hx)
        · exact .inr ⟨q, List.mem_cons_of_mem _ hq, hxq⟩

theorem mem_removeFirst (ps : List Product) (pid : Nat) (x : Product)
    (hx : x ∈ removeFirst ps pid) : x ∈ ps := by
  induction ps with
  | nil => simp [removeFirst] at hx
  | cons p rest ih =>
    by_cases h : p.id = pid
    · rw [removeFirst, if_pos h] at hx
      exact List.mem_cons_of_mem _ hx
    · rw [removeFirst, if_neg h, List.mem_cons] at hx
      rcases hx with hx | hx
      · exact hx ▸ List.mem_cons_self ..
      · exact List.mem_cons_of_mem _ (ih hx)

theorem decBy_id (q : ℚ) (p : Product) : (decBy q p).id = p.id := rfl

/-- Reflexivity of the quantity-domination relation. -/
theorem QuantLe.refl (ps : List Product) : QuantLe ps ps :=
  fun _ p hp => ⟨p, hp, le_refl _⟩

/-- Stability of `QuantLe` under a non-negative decrement of one product. -/
theorem QuantLe.updateFirst_decBy (ps ps₀ : List Product) (pid : Nat) (q : ℚ)
    (hle : QuantLe ps ps₀) (hq : 0 ≤ q) :
    QuantLe (updateFirst ps pid (decBy q)) ps₀ := by
  intro pid' p' hp'
  by_cases h : pid' = pid
  · subst h
    rw [findProduct_updateFirst_self ps pid' _ (decBy_id q)] at hp'
    rcases Option.map_eq_some'.mp hp' with ⟨p, hp, rfl⟩
    rcases hle pid' p hp with ⟨p₀, hp₀, hpq⟩
    exact ⟨p₀, hp₀, le_trans (by simpa [decBy] using sub_le_self p.quantity hq) hpq⟩
  · rw [findProduct_updateFirst_ne ps pid pid' _ (decBy_id q) h] at hp'
    exact hle pid' p' hp'

/-- Key lemma for C1: if some ingredient of the list is insufficient with
respect to the loop's initial product table, the serving loop raises HTTP 400
(all ingredient quantities being non-negative, as pydantic guarantees for
every stored ingredient row). -/
theorem serveLoop_err (user_id now : Nat) :
    ∀ (ings : List MealIngredient) (ps ps₀ : List Product)
      (logs : List InventoryLog) (next_log : Nat) (pub : List Notification),
      QuantLe ps ps₀ →
      (∀ ing ∈ ings, 0 ≤ ing.quantity) →
      (∃ ing ∈ ings, insufficientFor ps₀ ing) →
      ∃ d, (serveLoop user_id now ings ps logs next_log pub).1 =
        .error (.httpException 400 d) := by
  intro ings
  induction ings with
  | nil => intro ps ps₀ logs next_log pub _ _ hbad; simp at hbad
  | cons ing rest ih =>
    intro ps ps₀ logs next_log pub hle hq hbad
    rw [serveLoop]
    rcases hfind : findProduct ps ing.product_id with _ | p
    · exact ⟨"Insufficient quantity for product", rfl⟩
    · dsimp only
      by_cases hlt : p.quantity < ing.quantity
      · rw [if_pos hlt]
        exact ⟨"Insufficient quantity for " ++ p.name, rfl⟩
      · rw [if_neg hlt]
        have hle' : QuantLe (updateFirst ps ing.product_id
            (fun p => { p with quantity := p.quantity - ing.quantity })) ps₀ :=
          QuantLe.updateFirst_decBy ps ps₀ ing.product_id ing.quantity hle
            (hq ing (List.mem_cons_self ..))
        have hq' : ∀ i ∈ rest, 0 ≤ i.quantity :=
          fun i hi => hq i (List.mem_cons_of_mem _ hi)
        have hbad' : ∃ i ∈ rest, insufficientFor ps₀ i := by
          rcases hbad with ⟨i, hi, hins⟩
          rcases List.mem_cons.mp hi with heq | hi'
          · rw [heq] at hins
            exfalso
            rcases hle ing.product_id p hfind with ⟨p₀, hp₀, hpq⟩
            rw [insufficientFor, hp₀] at hins
            exact hlt (lt_of_le_of_lt hpq hins)
          · exact ⟨i, hi', hins⟩
        exact ih _ ps₀ _ _ _ hle' hq' hbad'

/-- Claim C1: `serveMeal` is all-or-nothing.  For every database state and
meal, if some ingredient of the meal has a missing product or a product whose
quantity is strictly below the per-serving quantity (all stored ingredient
quantities being non-negative, as the pydantic schema guarantees), the call
fails with the HTTP 400 insufficient-stock error and the committed state is
unchanged: no product quantity changes, no consumption ledger entry and no
`MealServing` row is committed, including for ingredients processed earlier
in the same call. -/
theorem serve_meal_all_or_nothing (db : DB) (ms : MealServingCreate)
    (user_id now : Nat)
    (hq : ∀ ing ∈ ingredientsOf db ms.meal_id, 0 ≤ ing.quantity)
    (hbad : ∃ ing ∈ ingredientsOf db ms.meal_id,
      insufficientFor db.products ing) :
    (∃ d, (serve_meal db ms user_id now).1 = .error (.httpException 400 d)) ∧
    (serve_meal db ms user_id now).2.1 = db := by
  obtain ⟨d, hd⟩ := serveLoop_err user_id now (ingredientsOf db ms.meal_id)
    db.products db.products db.inventory_logs db.next_log_id []
    (QuantLe.refl _) hq hbad
  have hne : (ingredientsOf db ms.meal_id).isEmpty = false := by
    rcases hbad with ⟨ing, hi, _⟩
    rcases h : ingredientsOf db ms.meal_id with _ | _
    · rw [h] at hi; simp at hi
    · rfl
  rcases hloop : serveLoop user_id now (ingredientsOf db ms.meal_id)
      db.products db.inventory_logs db.next_log_id [] with ⟨res, pub⟩
  rw [hloop] at hd
  simp only at hd
  rw [hd] at hloop
  constructor
  · exact ⟨d, by simp only [serve_meal, hne, Bool.false_eq_true, if_false, hloop]⟩
  · simp only [serve_meal, hne, Bool.false_eq_true, if_false, hloop]

/-- Witness for C1 at a concrete insufficient state. -/
theorem serve_meal_all_or_nothing_witness :
    (∃ d, (serve_meal c1DB { meal_id := 1 } 7 5).1 =
      .error (.httpException 400 d)) ∧
    (serve_meal c1DB { meal_id := 1 } 7 5).2.1 = c1DB :=
  serve_meal_all_or_nothing c1DB { meal_id := 1 } 7 5 (by decide) (by decide)

theorem applyDecs_nil (ps : List Product) : applyDecs ps [] = ps := rfl

theorem applyDecs_cons (ps : List Product) (ing : MealIngredient)
    (rest : List MealIngredient) :
    applyDecs ps (ing :: rest) =
      applyDecs (updateFirst ps ing.product_id (decBy ing.quantity)) rest := rfl

/-- Characterization of a successful serving loop: the resulting session
state applies all decrements, appends exactly the consumption rows, advances
the log counter by the number of ingredients, and has published exactly one
notification per ingredient, in order. -/
theorem serveLoop_ok (user_id now : Nat) :
    ∀ (ings : List MealIngredient) (ps : List Product)
      (logs : List InventoryLog) (next_log : Nat) (pub : List Notification)
      (out : List Product × List InventoryLog × Nat) (pub' : List Notification),
      serveLoop user_id now ings ps logs next_log pub = (.ok out, pub') →
      out = (applyDecs ps ings,
        logs ++ consumptionLogs user_id now ings next_log,
        next_log + ings.length) ∧
      pub' = pub ++ ings.map notifOf := by
  intro ings
  induction ings with
  | nil =>
    intro ps logs next_log pub out pub' h
    rw [serveLoop] at h
    obtain ⟨h1, h2⟩ := Prod.mk.injEq .. ▸ h
    refine ⟨?_, by simpa using h2.symm⟩
    have := Except.ok.injEq .. ▸ h1
    simp only [applyDecs_nil, consumptionLogs, List.append_nil, Nat.add_zero]
    exact this.symm
  | cons ing rest ih =>
    intro ps logs next_log pub out pub' h
    rw [serveLoop] at h
    rcases hfind : findProduct ps ing.product_id with _ | p <;> rw [hfind] at h
    · exact absurd (congrArg Prod.fst h) (by simp)
    · dsimp only at h
      by_cases hlt : p.quantity < ing.quantity
      · rw [if_pos hlt] at h
        exact absurd (congrArg Prod.fst h) (by simp)
      · rw [if_neg hlt] at h
        obtain ⟨hout, hpub⟩ := ih _ _ _ _ _ _ h
        refine ⟨?_, by simpa [List.append_assoc] using hpub⟩
        rw [hout, applyDecs_cons, consumptionLogs]
        refine congrArg _ ?_
        rw [Prod.mk.injEq]
        exact ⟨by simp [List.append_assoc], by simp; omega⟩

theorem findProduct_applyDecs_notMem (ings : List MealIngredient) :
    ∀ (ps : List Product) (pid : Nat),
      (∀ ing ∈ ings, ing.product_id ≠ pid) →
      findProduct (applyDecs ps ings) pid = findProduct ps pid := by
  induction ings with
  | nil => intro ps pid _; rfl
  | cons ing rest ih =>
    intro ps pid h
    rw [applyDecs_cons, ih _ pid (fun i hi => h i (List.mem_cons_of_mem _ hi)),
      findProduct_updateFirst_ne _ _ _ _ (decBy_id ing.quantity)
        (fun hc => h ing (List.mem_cons_self ..) hc.symm)]

/-- Lemma for C6: when the ingredients reference pairwise-distinct products,
each ingredient's product ends up decremented by exactly that ingredient's
per-serving quantity. -/
theorem findProduct_applyDecs_nodup (ings : List MealIngredient) :
    ∀ (ps : List Product),
      (ings.map (fun i => i.product_id)).Nodup →
      ∀ ing ∈ ings,
        findProduct (applyDecs ps ings) ing.product_id =
          (findProduct ps ing.product_id).map (decBy ing.quantity) := by
  induction ings with
  | nil => intro ps _ ing hmem; simp at hmem
  | cons a rest ih =>
    intro ps hnd ing hmem
    rw [List.map_cons, List.nodup_cons] at hnd
    obtain ⟨hna, hndr⟩ := hnd
    rcases List.mem_cons.mp hmem with heq | hmem'
    · subst heq
      rw [applyDecs_cons,
        findProduct_applyDecs_notMem rest _ ing.product_id
          (fun i hi hc =>
            hna (hc ▸ List.mem_map_of_mem (fun i => i.product_id) hi)),
        findProduct_updateFirst_self _ _ _ (decBy_id ing.quantity)]
    · have hne : ing.product_id ≠ a.product_id := fun hc =>
        hna (hc ▸ List.mem_map_of_mem (fun i => i.product_id) hmem')
      rw [applyDecs_cons, ih _ hndr ing hmem',
        findProduct_updateFirst_ne _ _ _ _ (decBy_id a.quantity) hne]

/-- Claim C6: on a fully successful `serveMeal` call, the returned
`MealServing` carries the requested meal id and the acting user (with the
fresh serving id and the call timestamp), it is the single row appended to
`meal_servings`, the ledger gains exactly one `consumption` row per
ingredient (recording the consumed quantity and the actor), and — when the
meal's ingredients reference pairwise-distinct products, as the
(meal, product) primary key guarantees — every ingredient's product quantity
is decremented by exactly that ingredient's per-serving quantity. -/
theorem serve_meal_success (db : DB) (ms : MealServingCreate)
    (user_id now : Nat) (s : MealServing) (db' : DB)
    (pub : List Notification)
    (hnd : ((ingredientsOf db ms.meal_id).map (fun i => i.product_id)).Nodup)
    (h : serve_meal db ms user_id now = (.ok s, db', pub)) :
    s = { id := db.next_serving_id, meal_id := ms.meal_id,
          user_id := user_id, timestamp := now } ∧
    db'.meal_servings = db.meal_servings ++ [s] ∧
    db'.inventory_logs = db.inventory_logs ++
      consumptionLogs user_id now (ingredientsOf db ms.meal_id)
        db.next_log_id ∧
    (∀ ing ∈ ingredientsOf db ms.meal_id,
      findProduct db'.products ing.product_id =
        (findProduct db.products ing.product_id).map (decBy ing.quantity)) := by
  rcases hemp : (ingredientsOf db ms.meal_id).isEmpty with _ | _
  · rcases hloop : serveLoop user_id now (ingredientsOf db ms.meal_id)
        db.products db.inventory_logs db.next_log_id [] with ⟨res, pub₀⟩
    rcases res with e | out
    · rw [serve_meal] at h
      simp only [hemp, Bool.false_eq_true, if_false, hloop] at h
      simp at h
    · obtain ⟨hout, -⟩ := serveLoop_ok user_id now _ _ _ _ _ _ _ hloop
      rw [serve_meal] at h
      simp only [hemp, Bool.false_eq_true, if_false, hloop, Prod.mk.injEq,
        Except.ok.injEq] at h
      obtain ⟨hs, hdb, -⟩ := h
      subst hdb
      refine ⟨hs.symm, ?_, ?_, ?_⟩
      · dsimp only
        rw [hs]
      · dsimp only
        rw [hout]
      · intro ing hmem
        dsimp only
        rw [hout]
        exact findProduct_applyDecs_nodup _ _ hnd ing hmem
  · rw [serve_meal] at h
    rw [if_pos hemp] at h
    simp at h

/-- Witness for C6 at a concrete successful serving. -/
theorem serve_meal_success_witness :
    ((ingredientsOf c6DB 1).map (fun i => i.product_id)).Nodup ∧
    c6DB'.meal_servings = c6DB.meal_servings ++
      [{ id := 1, meal_id := 1, user_id := 7, timestamp := 5 }] :=
  ⟨by decide,
    (serve_meal_success c6DB { meal_id := 1 } 7 5
      { id := 1, meal_id := 1, user_id := 7, timestamp := 5 } c6DB'
      [{ quantity := 50, product_id := 1 }] (by decide) (by rfl)).2.1⟩

/-- Lemma for C5: a guarded decrement keeps all quantities non-negative. -/
theorem updateFirst_decBy_nonneg (q : ℚ) :
    ∀ (ps : List Product),
      (∀ p ∈ ps, 0 ≤ p.quantity) →
      (∀ p, findProduct ps pid = some p → q ≤ p.quantity) →
      ∀ x ∈ updateFirst ps pid (decBy q), 0 ≤ x.quantity := by
  intro ps
  induction ps with
  | nil => intro _ _ x hx; simp [updateFirst] at hx
  | cons p rest ih =>
    intro h hfound x hx
    by_cases hp : p.id = pid
    · rw [updateFirst, if_pos hp, List.mem_cons] at hx
      rcases hx with hx | hx
      · have hq : q ≤ p.quantity :=
          hfound p (by rw [findProduct_cons, if_pos hp])
        rw [hx]
        simpa [decBy] using hq
      · exact h x (List.mem_cons_of_mem _ hx)
    · rw [updateFirst, if_neg hp, List.mem_cons] at hx
      rcases hx with hx | hx
      · exact hx ▸ h p (List.mem_cons_self ..)
      · exact ih (fun y hy => h y (List.mem_cons_of_mem _ hy))
          (fun y hy => hfound y (by rwa [findProduct_cons, if_neg hp]))
          x hx

/-- Lemma for C5: a successful serving loop never drives a stock quantity
negative — every decrement is guarded by the
`product.quantity < ingredient.quantity` check against the current session
state. -/
theorem serveLoop_nonneg (user_id now : Nat) :
    ∀ (ings : List MealIngredient) (ps : List Product)
      (logs : List InventoryLog) (next_log : Nat) (pub : List Notification)
      (out : List Product × List InventoryLog × Nat)
      (pub' : List Notification),
      serveLoop user_id now ings ps logs next_log pub = (.ok out, pub') →
      (∀ p ∈ ps, 0 ≤ p.quantity) →
      ∀ p ∈ out.1, 0 ≤ p.quantity := by
  intro ings
  induction ings with
  | nil =>
    intro ps logs next_log pub out pub' h h0
    rw [serveLoop] at h
    obtain ⟨h1, _⟩ := Prod.mk.injEq .. ▸ h
    have hout : (ps, logs, next_log) = out := Except.ok.inj h1
    rw [← hout]
    exact h0
  | cons ing rest ih =>
    intro ps logs next_log pub out pub' h h0
    rw [serveLoop] at h
    rcases hfind : findProduct ps ing.product_id with _ | p <;> rw [hfind] at h
    · exact absurd (congrArg Prod.fst h) (by simp)
    · dsimp only at h
      by_cases hlt : p.quantity < ing.quantity
      · rw [if_pos hlt] at h
        exact absurd (congrArg Prod.fst h) (by simp)
      · rw [if_neg hlt] at h
        refine ih _ _ _ _ _ _ h ?_
        refine updateFirst_decBy_nonneg ing.quantity ps h0 ?_
        intro y hy
        rw [hfind] at hy
        exact (Option.some.inj hy) ▸ le_of_not_lt hlt

/-- Step lemma for C5: each committed operation preserves non-negative stock
(payloads having passed pydantic validation). -/
theorem applyOp_nonneg (db : DB) (op : Op) (hv : op.valid)
    (h0 : nonNegStock db) : nonNegStock (applyOp db op) := by
  cases op with
  | createProduct pc now =>
    dsimp only [applyOp, create_product]
    split
    · exact h0
    · intro p hp
      rcases List.mem_append.mp hp with hp | hp
      · exact h0 p hp
      · rw [List.mem_singleton.mp hp]
        exact hv.1
  | updateProduct pid pc now =>
    dsimp only [applyOp, update_product]
    rcases hfind : findProduct db.products pid with _ | q
    · exact h0
    · intro p hp
      rcases mem_updateFirst _ _ _ p hp with hp | ⟨_, _, hpq⟩
      · exact h0 p hp
      · rw [hpq]
        exact hv.1
  | deleteProduct pid now =>
    dsimp only [applyOp, delete_product]
    rcases hfind : findProduct db.products pid with _ | q
    · exact h0
    · exact fun p hp => h0 p (mem_removeFirst _ _ _ hp)
  | serveMeal ms user_id now =>
    dsimp only [applyOp, serve_meal]
    rcases hemp : (ingredientsOf db ms.meal_id).isEmpty with _ | _
    · rcases hloop : serveLoop user_id now (ingredientsOf db ms.meal_id)
          db.products db.inventory_logs db.next_log_id [] with ⟨res, pub₀⟩
      rcases res with e | out
      · simp only [hemp, Bool.false_eq_true, if_false, hloop]
        exact h0
      · simp only [hemp, Bool.false_eq_true, if_false, hloop]
        exact serveLoop_nonneg user_id now _ _ _ _ _ _ _ hloop h0
    · simp only [hemp, if_true]
      exact h0

/-- Claim C5: the stock non-negativity invariant.  Starting from any state
with non-negative product quantities, any finite sequence of committed
`create_product` / `update_product` / `delete_product` / `serve_meal`
operations (whose payloads passed pydantic validation) leaves every product
quantity non-negative; since the sequence is arbitrary, the invariant holds
after each intermediate committed operation as well. -/
theorem stock_nonneg_invariant (db : DB) (ops : List Op)
    (h0 : nonNegStock db) (hv : ∀ op ∈ ops, op.valid) :
    nonNegStock (ops.foldl applyOp db) := by
  induction ops generalizing db with
  | nil => exact h0
  | cons op rest ih =>
    exact ih (applyOp db op)
      (applyOp_nonneg db op (hv op (List.mem_cons_self ..)) h0)
      (fun o ho => hv o (List.mem_cons_of_mem _ ho))

/-- Witness for C5 at a concrete state and operation sequence. -/
theorem stock_nonneg_invariant_witness :
    nonNegStock c5DB ∧ (∀ op ∈ c5Ops, op.valid) ∧
      nonNegStock (c5Ops.foldl applyOp c5DB) :=
  ⟨by decide, by decide,
    stock_nonneg_invariant c5DB c5Ops (by decide) (by decide)⟩

/-- Lemma for C7: whatever the serving loop returns, the notifications it has
published are `pub` followed by notifications for a prefix of the ingredient
list — each iteration publishes its ingredient's notification immediately
after the ingredient passes its check, before any commit. -/
theorem serveLoop_pub_prefix (user_id now : Nat) :
    ∀ (ings : List MealIngredient) (ps : List Product)
      (logs : List InventoryLog) (next_log : Nat) (pub : List Notification),
      ∃ l, (serveLoop user_id now ings ps logs next_log pub).2 = pub ++ l ∧
        l <+: ings.map notifOf := by
  intro ings
  induction ings with
  | nil =>
    intro ps logs next_log pub
    exact ⟨[], by simp [serveLoop], List.nil_prefix ..⟩
  | cons ing rest ih =>
    intro ps logs next_log pub
    rw [serveLoop]
    rcases hfind : findProduct ps ing.product_id with _ | p
    · exact ⟨[], by simp, List.nil_prefix ..⟩
    · dsimp only
      by_cases hlt : p.quantity < ing.quantity
      · rw [if_pos hlt]
        exact ⟨[], by simp, List.nil_prefix ..⟩
      · rw [if_neg hlt]
        obtain ⟨l, hl, hpre⟩ := ih
          (updateFirst ps ing.product_id
            (fun p => { p with quantity := p.quantity - ing.quantity }))
          (logs ++
            [{ id := next_log, product_id := ing.product_id,
               change_type := "consumption", quantity := ing.quantity,
               timestamp := now, user_id := user_id }])
          (next_log + 1) (pub ++ [notifOf ing])
        refine ⟨notifOf ing :: l, ?_, ?_⟩
        · rw [hl, List.append_assoc]
          rfl
        · rw [List.map_cons]
          exact (List.prefix_cons_inj _).mpr hpre

/-- Counterexample to claim C7 as stated: this `serveMeal` call aborts (Flour
is insufficient), yet one notification — for the Milk ingredient processed
earlier in the same call — has already been published on the channel.  The
claim that an aborting call publishes zero notifications is false. -/
theorem serve_meal_publish_on_abort_cex :
    (serve_meal c7DB { meal_id := 1 } 7 0).1 =
      .error (.httpException 400 "Insufficient quantity for Flour") ∧
    (serve_meal c7DB { meal_id := 1 } 7 0).2.2 =
      [{ quantity := 50, product_id := 1 }] :=
  ⟨rfl, rfl⟩

/-- Claim C7 as amended: notifications are published per ingredient during
loop processing, before the transaction commits.  For every call, the
published list is the notifications of a prefix of the ingredient list (so an
aborting call has already published one notification per ingredient processed
before the failure — zero only when the first ingredient fails); on full
success exactly one notification per ingredient is published, in ingredient
order. -/
theorem serve_meal_publish (db : DB) (ms : MealServingCreate)
    (user_id now : Nat) :
    (serve_meal db ms user_id now).2.2 <+:
      (ingredientsOf db ms.meal_id).map notifOf ∧
    (∀ s db' pub, serve_meal db ms user_id now = (.ok s, db', pub) →
      pub = (ingredientsOf db ms.meal_id).map notifOf) := by
  rcases hemp : (ingredientsOf db ms.meal_id).isEmpty with _ | _
  · rcases hloop : serveLoop user_id now (ingredientsOf db ms.meal_id)
        db.products db.inventory_logs db.next_log_id [] with ⟨res, pub₀⟩
    obtain ⟨l, hl, hpre⟩ := serveLoop_pub_prefix user_id now
      (ingredientsOf db ms.meal_id) db.products db.inventory_logs
      db.next_log_id []
    rw [hloop] at hl
    simp only [List.nil_append] at hl
    constructor
    · rcases res with e | out
      · rw [serve_meal]
        simp only [hemp, Bool.false_eq_true, if_false, hloop]
        exact hl ▸ hpre
      · rw [serve_meal]
        simp only [hemp, Bool.false_eq_true, if_false, hloop]
        exact hl ▸ hpre
    · intro s db' pub h
      rw [serve_meal] at h
      simp only [hemp, Bool.false_eq_true, if_false, hloop] at h
      rcases res with e | out
      · simp at h
      · obtain ⟨-, hpub⟩ := serveLoop_ok user_id now _ _ _ _ _ _ _ hloop
        simp only [Prod.mk.injEq] at h
        rw [← h.2.2, hpub, List.nil_append]
  · rw [serve_meal]
    rw [if_pos hemp]
    constructor
    · exact List.nil_prefix ..
    · intro s db' pub h
      simp at h

/-- Witness for the amended C7 at a concrete successful serving. -/
theorem serve_meal_publish_witness :
    [({ quantity := 50, product_id := 1 } : Notification)] =
      (ingredientsOf c7okDB 1).map notifOf :=
  (serve_meal_publish c7okDB { meal_id := 1 } 7 5).2
    { id := 1, meal_id := 1, user_id := 7, timestamp := 5 } c7okDB'
    [{ quantity := 50, product_id := 1 }] (by rfl)

/-- Lemma for C2: on an existing product and a non-negative per-serving
quantity, the code's availability equals the claim's formula. -/
theorem avail_eq_spec_avail (ps : List Product) (ing : MealIngredient)
    (p : Product) (hfind : findProduct ps ing.product_id = some p)
    (hq : 0 ≤ ing.quantity) :
    (if 0 < ing.quantity then (p.quantity / ing.quantity).floor else 0) =
      spec_avail ps ing := by
  unfold spec_avail
  rw [hfind]
  dsimp only
  rcases eq_or_lt_of_le hq with heq | hlt
  · rw [if_neg (by rw [← heq]; exact lt_irrefl 0), if_pos heq.symm]
  · rw [if_pos hlt, if_neg (ne_of_gt hlt), ratFloor_eq_intFloor]

theorem portionsGo_some (ps : List Product) :
    ∀ (ings : List MealIngredient) (a : ℤ),
      (∀ ing ∈ ings, (findProduct ps ing.product_id).isSome) →
      (∀ ing ∈ ings, 0 ≤ ing.quantity) →
      portionsGo ps ings (some a) =
        some ((ings.map (spec_avail ps)).foldl min a) := by
  intro ings
  induction ings with
  | nil => intro a _ _; rfl
  | cons ing rest ih =>
    intro a hex hq
    rcases hfind : findProduct ps ing.product_id with _ | p
    · exact absurd (hex ing (List.mem_cons_self ..))
        (by rw [hfind]; simp)
    · rw [portionsGo, hfind]
      dsimp only
      rw [avail_eq_spec_avail ps ing p hfind (hq ing (List.mem_cons_self ..)),
        ih (min a (spec_avail ps ing))
          (fun i hi => hex i (List.mem_cons_of_mem _ hi))
          (fun i hi => hq i (List.mem_cons_of_mem _ hi)),
        List.map_cons, List.foldl_cons]

theorem portionsGo_none_spec (ps : List Product) (ing : MealIngredient)
    (rest : List MealIngredient)
    (hex : ∀ i ∈ ing :: rest, (findProduct ps i.product_id).isSome)
    (hq : ∀ i ∈ ing :: rest, 0 ≤ i.quantity) :
    portionsGo ps (ing :: rest) none =
      some ((rest.map (spec_avail ps)).foldl min (spec_avail ps ing)) := by
  rcases hfind : findProduct ps ing.product_id with _ | p
  · exact absurd (hex ing (List.mem_cons_self ..)) (by rw [hfind]; simp)
  · rw [portionsGo, hfind]
    dsimp only
    rw [avail_eq_spec_avail ps ing p hfind (hq ing (List.mem_cons_self ..)),
      portionsGo_some ps rest (spec_avail ps ing)
        (fun i hi => hex i (List.mem_cons_of_mem _ hi))
        (fun i hi => hq i (List.mem_cons_of_mem _ hi))]

theorem except_map_ok {e a b : Type} (f : a → b) (x : a) :
    (Except.ok x : Except e a).map f = .ok (f x) := rfl

/-- Lemma for C2: the estimate loop produces the claim-side record for every
meal of the list. -/
theorem estimatesLoop_spec (db : DB)
    (hex : ∀ ing ∈ db.meal_ingredients,
      (findProduct db.products ing.product_id).isSome)
    (hq : ∀ ing ∈ db.meal_ingredients, 0 ≤ ing.quantity) :
    ∀ meals : List Meal,
      estimatesLoop db meals =
        .ok (meals.map fun m =>
          { meal_id := m.id, name := m.name,
            portions := spec_portion_estimate db m.id }) := by
  intro meals
  induction meals with
  | nil => rfl
  | cons m rest ih =>
    have hex' : ∀ i ∈ ingredientsOf db m.id,
        (findProduct db.products i.product_id).isSome :=
      fun i hi => hex i (List.mem_filter.mp hi).1
    have hq' : ∀ i ∈ ingredientsOf db m.id, 0 ≤ i.quantity :=
      fun i hi => hq i (List.mem_filter.mp hi).1
    rcases hing : ingredientsOf db m.id with _ | ⟨i, irest⟩
    · rw [estimatesLoop]
      simp only [hing, List.isEmpty_nil, if_true, ih]
      rw [except_map_ok, List.map_cons, spec_portion_estimate, hing]
    · rw [estimatesLoop]
      simp only [hing, List.isEmpty_cons, Bool.false_eq_true, if_false]
      rw [portionsGo_none_spec db.products i irest (hing ▸ hex') (hing ▸ hq'), ih]
      dsimp only
      rw [except_map_ok, List.map_cons, spec_portion_estimate, hing]

/-- Claim C2: for every meal, the portion estimate is 0 when the meal has no
ingredients, and otherwise the minimum over its ingredients of
`floor(product.quantity / ingredient.quantity)` (an ingredient of per-serving
quantity 0 contributing 0 instead of dividing by zero), an integer — provided
every stored ingredient references an existing product and has a non-negative
per-serving quantity, as the schema guarantees. -/
theorem get_portion_estimates_spec (db : DB)
    (hex : ∀ ing ∈ db.meal_ingredients,
      (findProduct db.products ing.product_id).isSome)
    (hq : ∀ ing ∈ db.meal_ingredients, 0 ≤ ing.quantity) :
    get_portion_estimates db =
      .ok (db.meals.map fun m =>
        { meal_id := m.id, name := m.name,
          portions := spec_portion_estimate db m.id }) :=
  estimatesLoop_spec db hex hq db.meals

/-- Witness for C2 at the spec's worked example. -/
theorem get_portion_estimates_spec_witness :
    get_portion_estimates c2DB =
      .ok (c2DB.meals.map fun m =>
        { meal_id := m.id, name := m.name,
          portions := spec_portion_estimate c2DB m.id }) :=
  get_portion_estimates_spec c2DB (by decide) (by decide)

theorem except_map_error {e a b : Type} (f : a → b) (err : e) :
    (Except.error err : Except e a).map f = .error err := rfl

/-- Lemma for C10: an ingredient whose product is missing leaves the
accumulator of `get_portion_estimates` untouched; a whole list of such
ingredients leaves it at its initial value. -/
theorem portionsGo_skip_all (ps : List Product) :
    ∀ (ings : List MealIngredient) (acc : Option ℤ),
      (∀ ing ∈ ings, findProduct ps ing.product_id = none) →
      portionsGo ps ings acc = acc := by
  intro ings
  induction ings with
  | nil => intro acc _; rfl
  | cons ing rest ih =>
    intro acc hmiss
    rw [portionsGo, hmiss ing (List.mem_cons_self ..)]
    exact ih acc (fun i hi => hmiss i (List.mem_cons_of_mem _ hi))

/-- Lemma for C10: a meal with a non-empty ingredient list, all of whose
products are missing, makes the estimate loop raise the overflow error. -/
theorem estimatesLoop_error (db : DB) :
    ∀ meals : List Meal,
      (∃ m ∈ meals, ingredientsOf db m.id ≠ [] ∧
        ∀ ing ∈ ingredientsOf db m.id,
          findProduct db.products ing.product_id = none) →
      estimatesLoop db meals =
        .error (.overflowError "cannot convert float infinity to integer") := by
  intro meals
  induction meals with
  | nil => intro h; simp at h
  | cons m' rest ih =>
    intro h
    rcases h with ⟨m, hm, hne, hmiss⟩
    rcases List.mem_cons.mp hm with heq | hm'
    · rw [heq] at hne hmiss
      rcases hing : ingredientsOf db m'.id with _ | ⟨i, irest⟩
      · exact absurd hing hne
      · rw [estimatesLoop]
        simp only [hing, List.isEmpty_cons, Bool.false_eq_true, if_false]
        rw [portionsGo_skip_all db.products (i :: irest) none
          (fun ing hi => hmiss ing (hing ▸ hi))]
    · rcases hing : ingredientsOf db m'.id with _ | ⟨i, irest⟩
      · rw [estimatesLoop]
        simp only [hing, List.isEmpty_nil, if_true,
          ih ⟨m, hm', hne, hmiss⟩]
        exact except_map_error ..
      · rw [estimatesLoop]
        simp only [hing, List.isEmpty_cons, Bool.false_eq_true, if_false]
        rcases portionsGo db.products (i :: irest) none with _ | v
        · rfl
        · rw [ih ⟨m, hm', hne, hmiss⟩]
          exact except_map_error ..

/-- Claim C10: in `get_portion_estimates` an ingredient whose product does
not exist is skipped rather than contributing availability 0 — concretely,
the meal of `c10skipDB` gets estimate `floor(30/10) = 3` from its Rice
ingredient alone, not 0 from the dangling one — and for any meal with a
non-empty ingredient set in which no ingredient references an existing
product, the accumulator stays infinite and the final `int()` conversion
raises an overflow error instead of returning an estimate. -/
theorem get_portion_estimates_missing_products :
    (∀ (db : DB) (m : Meal), m ∈ db.meals →
      ingredientsOf db m.id ≠ [] →
      (∀ ing ∈ ingredientsOf db m.id,
        findProduct db.products ing.product_id = none) →
      get_portion_estimates db =
        .error (.overflowError "cannot convert float infinity to integer")) ∧
    get_portion_estimates c10skipDB =
      .ok [{ meal_id := 1, name := "Stew", portions := 3 }] := by
  constructor
  · intro db m hm hne hmiss
    exact estimatesLoop_error db db.meals ⟨m, hm, hne, hmiss⟩
  · have h1 : get_portion_estimates c10skipDB =
        .ok [{ meal_id := 1, name := "Stew",
               portions := ((30 : ℚ) / 10).floor }] := rfl
    have h2 : ((30 : ℚ) / 10).floor = 3 := by
      rw [ratFloor_eq_intFloor, show (30 : ℚ) / 10 = 3 by norm_num]
      simp
    rw [h2] at h1
    exact h1

/-- Witness for C10's overflow branch at a concrete state. -/
theorem get_portion_estimates_missing_products_witness :
    get_portion_estimates c10errDB =
      .error (.overflowError "cannot convert float infinity to integer") :=
  get_portion_estimates_missing_products.1 c10errDB
    { id := 1, name := "Ghost" } (by decide) (by decide) (by decide)

/-- Lemma for C3: when some ingredient's product is missing, the validation
loop reports a missing product id. -/
theorem firstMissingProduct_spec (ps : List Product) :
    ∀ ings : List MealIngredientIn,
      (∃ i ∈ ings, findProduct ps i.product_id = none) →
      ∃ pid, firstMissingProduct ps ings = some pid ∧
        findProduct ps pid = none := by
  intro ings
  induction ings with
  | nil => intro h; simp at h
  | cons i rest ih =>
    intro h
    rcases hfind : findProduct ps i.product_id with _ | p
    · exact ⟨i.product_id,
        by rw [firstMissingProduct, hfind]; rfl, hfind⟩
    · have hr : ∃ j ∈ rest, findProduct ps j.product_id = none := by
        rcases h with ⟨j, hj, hjn⟩
        rcases List.mem_cons.mp hj with heq | hj'
        · rw [heq, hfind] at hjn
          exact absurd hjn (by simp)
        · exact ⟨j, hj', hjn⟩
      obtain ⟨pid, hfm, hnone⟩ := ih hr
      refine ⟨pid, ?_, hnone⟩
      rw [firstMissingProduct, hfind]
      simpa using hfm

/-- Counterexample to claim C3 as stated: this `createMeal` call fails with
the 422 error naming the missing product, yet the meal row *was* persisted —
the meals table changed — because `create_meal` commits the meal row before
validating any ingredient. -/
theorem create_meal_not_atomic_cex :
    (create_meal c3DB c3Req).1 =
      .error (.httpException 422 "Product with id 1 not found") ∧
    (create_meal c3DB c3Req).2.meals ≠ c3DB.meals := by
  exact ⟨rfl, by decide⟩

/-- Claim C3 as amended: when some ingredient of a meal-creation request
references a nonexistent product (and the meal name is fresh), the operation
fails with the 422 error naming the first such product id and no ingredient
row is persisted — but the meal row itself *is* persisted, having been
committed before ingredient validation. -/
theorem create_meal_commits_meal_row (db : DB) (mc : MealCreate)
    (hname : ∀ m ∈ db.meals, m.name ≠ mc.name)
    (hmiss : ∃ i ∈ mc.ingredients,
      findProduct db.products i.product_id = none) :
    ∃ pid, findProduct db.products pid = none ∧
      create_meal db mc =
        (.error (.httpException 422
          ("Product with id " ++ toString pid ++ " not found")),
         dbWithMealRow db mc) ∧
      (dbWithMealRow db mc).meal_ingredients = db.meal_ingredients ∧
      (dbWithMealRow db mc).meals =
        db.meals ++ [{ id := db.next_meal_id, name := mc.name }] := by
  obtain ⟨pid, hfm, hnone⟩ := firstMissingProduct_spec db.products
    mc.ingredients hmiss
  refine ⟨pid, hnone, ?_, rfl, rfl⟩
  have hany : db.meals.any (fun m => m.name == mc.name) = false := by
    rw [List.any_eq_false]
    intro m hm
    simpa using hname m hm
  rw [create_meal, hany]
  simp only [Bool.false_eq_true, if_false, hfm]

/-- Witness for the amended C3 at the concrete request. -/
theorem create_meal_commits_meal_row_witness :
    ∃ pid, findProduct c3DB.products pid = none ∧
      create_meal c3DB c3Req =
        (.error (.httpException 422
          ("Product with id " ++ toString pid ++ " not found")),
         dbWithMealRow c3DB c3Req) ∧
      (dbWithMealRow c3DB c3Req).meal_ingredients = c3DB.meal_ingredients ∧
      (dbWithMealRow c3DB c3Req).meals =
        c3DB.meals ++ [{ id := c3DB.next_meal_id, name := c3Req.name }] :=
  create_meal_commits_meal_row c3DB c3Req (by decide) (by decide)

/-- Claim C4, evaluated on the three branches of `delete_meal`: an absent
meal id returns `None` (the route layer turns this into 404), a meal with a
recorded serving raises the HTTP 400 conflict, and — the divergence from the
claim — an existing meal with no servings does *not* get deleted: the code's
`select(MealIngredient).where(...).delete()` raises `AttributeError`
(SQLAlchemy `Select` has no `delete` method) before removing anything, and
the state is unchanged. -/
theorem delete_meal_branches :
    delete_meal c4DB 3 = (.ok none, c4DB) ∧
    delete_meal c4DB 2 =
      (.error (.httpException 400 "Cannot delete meal with existing servings"),
        c4DB) ∧
    delete_meal c4DB 1 =
      (.error (.attributeError "'Select' object has no attribute 'delete'"),
        c4DB) :=
  ⟨rfl, rfl, rfl⟩

/-- Claim C8: `calculate_discrepancy_rate` never returns a rate on any
database state — line 60 of `tasks.py` calls the `async` function
`crud.get_portion_estimates` without `await` and iterates the resulting
coroutine object, raising `TypeError` before the rate formula on line 61 is
ever reached; the task's `except Exception` wraps and re-raises it. -/
theorem calculate_discrepancy_rate_always_raises (db : DB) (now : Nat) :
    calculate_discrepancy_rate db now =
      .error (.typeError
        "Failed to calculate discrepancy rate: 'coroutine' object is not iterable") :=
  rfl

/-- Lemma for C9: a freshly appended product with an unused id is found by
its id. -/
theorem findProduct_append_fresh (ps : List Product) (p : Product)
    (h : ∀ q ∈ ps, q.id ≠ p.id) :
    findProduct (ps ++ [p]) p.id = some p := by
  induction ps with
  | nil => rw [List.nil_append, findProduct_cons, if_pos rfl]
  | cons q rest ih =>
    rw [List.cons_append, findProduct_cons,
      if_neg (h q (List.mem_cons_self ..)),
      ih (fun r hr => h r (List.mem_cons_of_mem _ hr))]

/-- Claim C9: for every valid product-creation input (non-negative quantity
and threshold, fresh name; ids below the autoincrement counter), creating the
product and immediately reading it back by id returns a product whose name,
quantity and threshold equal the input values and whose delivery timestamp is
the server-assigned current time — independent of whatever `delivery_date`
the client supplied in the payload. -/
theorem create_product_roundtrip (db : DB) (pc : ProductCreate) (now : Nat)
    (hq : 0 ≤ pc.quantity) (ht : 0 ≤ pc.threshold)
    (hfresh : ∀ p ∈ db.products, p.name ≠ pc.name)
    (hid : ∀ p ∈ db.products, p.id ≠ db.next_product_id) :
    (create_product db pc now).1 = .ok
      { id := db.next_product_id, name := pc.name, quantity := pc.quantity,
        delivery_date := some now, threshold := pc.threshold } ∧
    get_product (create_product db pc now).2 db.next_product_id = some
      { id := db.next_product_id, name := pc.name, quantity := pc.quantity,
        delivery_date := some now, threshold := pc.threshold } := by
  have hany : db.products.any (fun p => p.name == pc.name) = false := by
    rw [List.any_eq_false]
    intro p hp
    simpa using hfresh p hp
  constructor
  · simp only [create_product, hany, Bool.false_eq_true, if_false]
  · simp only [create_product, get_product, hany, Bool.false_eq_true, if_false]
    exact findProduct_append_fresh db.products _ hid

/-- Witness for C9 at a concrete creation. -/
theorem create_product_roundtrip_witness :
    (create_product c9DB c9Req 123).1 = .ok
      { id := c9DB.next_product_id, name := c9Req.name,
        quantity := c9Req.quantity, delivery_date := some 123,
        threshold := c9Req.threshold } ∧
    get_product (create_product c9DB c9Req 123).2 c9DB.next_product_id = some
      { id := c9DB.next_product_id, name := c9Req.name,
        quantity := c9Req.quantity, delivery_date := some 123,
        threshold := c9Req.threshold } :=
  create_product_roundtrip c9DB c9Req 123 (by decide) (by decide)
    (by decide) (by decide)
